import Mathlib

/-
Verification of the document assembly and table-grid reconstruction engine
of docling/datamodel/document.py: coordinate normalization, table grid
reconstruction from cell-span declarations, routing of page elements into
the main-text / tables / figures channels, and whole-document assembly
(`ConvertedDocument.to_ds_document`).

Coordinates are modelled as rationals; Python lists become Lean lists and
the in-place assignment `table_data[i][j] = c` becomes `List.set`.  The
method's only failure mode (a `KeyError` on the page lookup) is modelled
with `Option`.
-/

namespace Docling

/-- Bounding box `(l, t, r, b)` = (left, top, right, bottom), rational
coordinates. -/
structure BBox where
  l : ℚ
  t : ℚ
  r : ℚ
  b : ℚ
  deriving DecidableEq, Repr

/-- Modelled from the spec: `BoundingBox.to_bottom_left_origin(page_height)`
lives in `docling.datamodel.base_models`, outside the excerpt.  Spec 4.1:
the transform maps a top-left-origin box to bottom-left origin via
`top' = pageHeight - bottom`, `bottom' = pageHeight - top`, with left and
right unchanged. -/
def to_bottom_left_origin (bb : BBox) (page_height : ℚ) : BBox :=
  { l := bb.l, t := page_height - bb.b, r := bb.r, b := page_height - bb.t }

/-- Modelled from the spec: the producer-side cell-span declaration
(`docling.datamodel.base_models.TableCell`, outside the excerpt).  Spec 3:
half-open start/end row and column offset ranges that may exceed the
declared grid extents (spec 9 leaves negative offsets undefined, so the
offsets are naturals), text content, a bounding box, and the two
independent header flags. -/
structure TableCellDecl where
  start_row_offset_idx : Nat
  end_row_offset_idx : Nat
  start_col_offset_idx : Nat
  end_col_offset_idx : Nat
  text : String
  bbox : BBox
  column_header : Bool
  row_header : Bool
  deriving DecidableEq, Repr

/-- Output grid cell (`docling_core.types.TableCell` as constructed in
document.py): text, an optional bounding box (absent on the synthetic
empty cells, document.py:184), the span set, and the cell kind string. -/
structure TableCell where
  text : String
  bbox : Option BBox
  spans : List (Nat × Nat)
  obj_type : String
  deriving DecidableEq, Repr

/-- Python `range(a, b)` on naturals: `a, a+1, …, b-1`, empty when `b ≤ a`. -/
def pyRange (a b : Nat) : List Nat :=
  List.range' a (b - a)

/-- Row indices visited for one declaration (document.py:195-198):
`range(min(start_row_offset_idx, num_rows), min(end_row_offset_idx, num_rows))`. -/
def rowIdxs (cell : TableCellDecl) (num_rows : Nat) : List Nat :=
  pyRange (min cell.start_row_offset_idx num_rows) (min cell.end_row_offset_idx num_rows)

/-- Column indices visited for one declaration (document.py:199-202). -/
def colIdxs (cell : TableCellDecl) (num_cols : Nat) : List Nat :=
  pyRange (min cell.start_col_offset_idx num_cols) (min cell.end_col_offset_idx num_cols)

/-- The function `make_spans` (document.py:209-220): all `(rspan, cspan)` pairs of
the clipped row and column ranges, row-major. -/
def make_spans (cell : TableCellDecl) (num_rows num_cols : Nat) : List (Nat × Nat) :=
  (rowIdxs cell num_rows).flatMap (fun i => (colIdxs cell num_cols).map (fun j => (i, j)))

/-- The cell kind computed at document.py:203-207: `col_header` when the
column-header flag is set, else `row_header` when that flag is set, else
`body`. -/
def celltype (cell : TableCellDecl) : String :=
  if cell.column_header then "col_header"
  else if cell.row_header then "row_header"
  else "body"

/-- The `TableCell` value written at document.py:223-234 for a declaration.
The source constructs it afresh at every covered position, but all the
constructions denote this one value. -/
def overwriteCell (page_height : ℚ) (num_rows num_cols : Nat) (cell : TableCellDecl) :
    TableCell :=
  { text := cell.text
  , bbox := some (to_bottom_left_origin cell.bbox page_height)
  , spans := make_spans cell num_rows num_cols
  , obj_type := celltype cell }

/-- A reconstructed table grid: rows of cells, as the nested Python list. -/
abbrev Grid := List (List TableCell)

/-- The synthetic empty body cell used to initialise the grid
(document.py:182-187): empty text, no bounding box, spanning only `(i, j)`. -/
def emptyCell (i j : Nat) : TableCell :=
  { text := "", bbox := none, spans := [(i, j)], obj_type := "body" }

/-- The initial table data grid (document.py:180-191): `num_rows` rows of
`num_cols` independent empty body cells. -/
def initGrid (num_rows num_cols : Nat) : Grid :=
  (List.range num_rows).map (fun i => (List.range num_cols).map (fun j => emptyCell i j))

/-- Python `table_data[i][j] = c` on the nested-list grid. -/
def setCell (g : Grid) (i j : Nat) (c : TableCell) : Grid :=
  g.set i ((g[i]?.getD []).set j c)

/-- One pass of the overwrite loop (document.py:194-234) for a single cell
declaration: every position of the clipped range (exactly the positions
listed by `make_spans`) is assigned the same `overwriteCell` value. -/
def applyCell (page_height : ℚ) (num_rows num_cols : Nat) (g : Grid)
    (cell : TableCellDecl) : Grid :=
  (make_spans cell num_rows num_cols).foldl
    (fun g p => setCell g p.1 p.2 (overwriteCell page_height num_rows num_cols cell)) g

/-- Table grid reconstruction (document.py:180-234): initialise the empty
grid, then process the cell declarations in input order. -/
def table_data (page_height : ℚ) (num_rows num_cols : Nat)
    (cells : List TableCellDecl) : Grid :=
  cells.foldl (applyCell page_height num_rows num_cols) (initGrid num_rows num_cols)

/-- Placeholder cell for reading outside the grid. -/
def defaultCell : TableCell :=
  { text := "", bbox := none, spans := [], obj_type := "" }

/-- Read grid position `(i, j)` (Python `table_data[i][j]` for in-range
indices). -/
def gridGet (g : Grid) (i j : Nat) : TableCell :=
  ((g[i]?.getD [])[j]?).getD defaultCell

/-- Position `(i, j)` lies inside the clipped range of `cell` on an
`num_rows × num_cols` grid. -/
def covers (cell : TableCellDecl) (num_rows num_cols i j : Nat) : Bool :=
  decide (cell.start_row_offset_idx ≤ i) && decide (i < cell.end_row_offset_idx) &&
  decide (i < num_rows) &&
  decide (cell.start_col_offset_idx ≤ j) && decide (j < cell.end_col_offset_idx) &&
  decide (j < num_cols)

/-- The last declaration in `cells` (input order) whose clipped range
contains `(i, j)`, if any. -/
def lastCover (cells : List TableCellDecl) (num_rows num_cols i j : Nat) :
    Option TableCellDecl :=
  cells.foldl (fun acc c => if covers c num_rows num_cols i j then some c else acc) none

/-- The grid has `num_rows` rows of `num_cols` cells each. -/
def gridShape (g : Grid) (num_rows num_cols : Nat) : Prop :=
  g.length = num_rows ∧ ∀ row ∈ g, row.length = num_cols

/-- The fixed label-mapping table `layout_label_to_ds_type`
(document.py:32-48), as the ordered list of its entries. -/
def layout_label_to_ds_type : List (String × String) :=
  [ ("Title", "title")
  , ("Document Index", "table-of-path_or_stream")
  , ("Section-header", "subtitle-level-1")
  , ("Checkbox-Selected", "checkbox-selected")
  , ("Checkbox-Unselected", "checkbox-unselected")
  , ("Caption", "caption")
  , ("Page-header", "page-header")
  , ("Page-footer", "page-footer")
  , ("Footnote", "footnote")
  , ("Table", "table")
  , ("Formula", "equation")
  , ("List-item", "paragraph")
  , ("Code", "paragraph")
  , ("Picture", "figure")
  , ("Text", "paragraph") ]

/-- Python `layout_label_to_ds_type.get(label)`: `some` of the mapped type
for a known label, `none` otherwise (the dict keys are pairwise distinct,
so first match equals dict lookup). -/
def labelToDsType (label : String) : Option String :=
  (layout_label_to_ds_type.find? (fun p => p.1 == label)).map Prod.snd

/-- Modelled from the spec: page size (`docling.datamodel.base_models.Page.size`,
outside the excerpt), width and height in top-left-origin space. -/
structure PageSize where
  width : ℚ
  height : ℚ
  deriving DecidableEq, Repr

/-- Modelled from the spec: the per-page metadata consumed here
(`docling.datamodel.base_models.Page`, outside the excerpt): page number,
content hash, dimensions. -/
structure Page where
  page_no : Nat
  page_hash : String
  size : PageSize
  deriving DecidableEq, Repr

/-- Modelled from the spec: the assembled page elements
(`TextElement` / `TableElement` / `FigureElement` of
`docling.datamodel.base_models`, outside the excerpt), with the fields
document.py reads: label, page number, the cluster bounding box, and the
variant payload. -/
inductive PageElement where
  | text (label : String) (page_no : Nat) (bbox : BBox) (text : String)
  | table (label : String) (page_no : Nat) (bbox : BBox)
      (num_rows num_cols : Nat) (table_cells : List TableCellDecl)
  | figure (label : String) (page_no : Nat) (bbox : BBox)
  deriving DecidableEq, Repr

def PageElement.label : PageElement → String
  | .text l _ _ _ => l
  | .table l _ _ _ _ _ => l
  | .figure l _ _ => l

def PageElement.page_no : PageElement → Nat
  | .text _ p _ _ => p
  | .table _ p _ _ _ _ => p
  | .figure _ p _ => p

def PageElement.bbox : PageElement → BBox
  | .text _ _ b _ => b
  | .table _ _ b _ _ _ => b
  | .figure _ _ b => b

def PageElement.isTable : PageElement → Bool
  | .table _ _ _ _ _ _ => true
  | _ => false

def PageElement.isFigure : PageElement → Bool
  | .figure _ _ _ => true
  | _ => false

def PageElement.isText : PageElement → Bool
  | .text _ _ _ _ => true
  | _ => false

/-- Provenance record (`docling_core.types.Prov` as constructed here):
bounding box, page number, character span. -/
structure Prov where
  bbox : BBox
  page : Nat
  span : List Nat
  deriving DecidableEq, Repr

/-- An entry of the `main_text` list: either an inline `BaseText` node or a
`Ref` node (document.py:153-177, 252-261). -/
inductive MainTextItem where
  | baseText (text : String) (obj_type : Option String) (name : String) (prov : List Prov)
  | ref (name : String) (obj_type : Option String) (ref : String)
  deriving DecidableEq, Repr

/-- A reconstructed table as appended to `tables` (document.py:236-250). -/
structure DsSchemaTable where
  num_cols : Nat
  num_rows : Nat
  obj_type : Option String
  data : Grid
  prov : List Prov
  deriving DecidableEq, Repr

/-- A figure record as appended to `figures` (document.py:262-274). -/
structure BaseCell where
  prov : List Prov
  obj_type : Option String
  deriving DecidableEq, Repr

/-- The lookup built at document.py:143:
`page_no_to_page = {p.page_no: p for p in self.pages}`; on duplicate page
numbers the later entry wins, as in a Python dict comprehension. -/
def page_no_to_page (pages : List Page) (n : Nat) : Option Page :=
  pages.reverse.find? (fun p => p.page_no == n)

/-- The three output channels accumulated by the element loop
(document.py:139-141). -/
structure RouteAcc where
  main_text : List MainTextItem
  tables : List DsSchemaTable
  figures : List BaseCell
  deriving DecidableEq, Repr

/-- One iteration of the element loop (document.py:145-274).  The page
lookup `page_no_to_page[element.page_no]` raises `KeyError` on a missing
page, modelled as `none`; otherwise the element is dispatched on its
structural variant. -/
def routeElement (pages : List Page) (acc : RouteAcc) (element : PageElement) :
    Option RouteAcc :=
  match page_no_to_page pages element.page_no with
  | none => none
  | some page =>
    let target_bbox := to_bottom_left_origin element.bbox page.size.height
    match element with
    | .text label page_no _ txt =>
        some { acc with main_text := acc.main_text ++
          [.baseText txt (labelToDsType label) label
            [{ bbox := target_bbox, page := page_no, span := [0, txt.length] }]] }
    | .table label page_no _ num_rows num_cols table_cells =>
        let index := acc.tables.length
        let ref_str := "#/tables/" ++ toString index
        let tbl : DsSchemaTable :=
          { num_cols := num_cols
          , num_rows := num_rows
          , obj_type := labelToDsType label
          , data := table_data page.size.height num_rows num_cols table_cells
          , prov := [{ bbox := target_bbox, page := page_no, span := [0, 0] }] }
        some { acc with
          main_text := acc.main_text ++ [.ref label (labelToDsType label) ref_str]
          , tables := acc.tables ++ [tbl] }
    | .figure label page_no _ =>
        let index := acc.figures.length
        let ref_str := "#/figures/" ++ toString index
        some { acc with
          main_text := acc.main_text ++ [.ref label (labelToDsType label) ref_str]
          , figures := acc.figures ++
              [{ prov := [{ bbox := target_bbox, page := page_no, span := [0, 0] }]
               , obj_type := labelToDsType label }] }

/-- The whole element loop (document.py:145-274), failing as a whole on the
first element whose page is missing. -/
def routeAll (pages : List Page) (acc : RouteAcc) : List PageElement → Option RouteAcc
  | [] => some acc
  | el :: rest =>
    match routeElement pages acc el with
    | none => none
    | some acc' => routeAll pages acc' rest

/-- Modelled from the spec: conversion status
(`docling.datamodel.base_models.ConversionStatus`, outside the excerpt). -/
inductive ConversionStatus where
  | pending
  | started
  | failure
  | success
  deriving DecidableEq, Repr

/-- The fields of `InputDocument` that `to_ds_document` reads (file name,
document hash, page count), plus its remaining state (document.py:51-58). -/
structure InputDocument where
  file : String
  document_hash : Option String
  valid : Bool
  filesize : Option Nat
  page_count : Option Nat
  deriving DecidableEq, Repr

/-- Modelled from the spec: the assembled unit
(`docling.datamodel.base_models.AssembledUnit`, outside the excerpt) with
the field document.py reads: the ordered element list. -/
structure AssembledUnit where
  elements : List PageElement
  deriving DecidableEq, Repr

/-- A `PageReference` as built at document.py:127-130. -/
structure PageReference where
  hash : String
  page : Nat
  model : String
  deriving DecidableEq, Repr

/-- The `DsFileInfoObject` built at document.py:132-137. -/
structure FileInfo where
  filename : String
  document_hash : Option String
  num_pages : Option Nat
  page_hashes : List PageReference
  deriving DecidableEq, Repr

/-- A `PageDimensions` entry as built at document.py:276-279. -/
structure PageDimensions where
  page : Nat
  height : ℚ
  width : ℚ
  deriving DecidableEq, Repr

/-- The assembled output document (`DsDocument` as built at
document.py:281-289; the description holds only the empty log list). -/
structure DsDocument where
  name : String
  description_logs : List String
  file_info : FileInfo
  main_text : List MainTextItem
  tables : List DsSchemaTable
  figures : List BaseCell
  page_dimensions : List PageDimensions
  deriving DecidableEq, Repr

/-- The state of a `ConvertedDocument` (document.py:112-121).  Errors are
kept opaque as strings; `assembled` must be populated for
`to_ds_document` to run at all, so it is carried directly. -/
structure ConvertedDocument where
  input : InputDocument
  status : ConversionStatus
  errors : List String
  pages : List Page
  assembled : AssembledUnit
  output : Option DsDocument
  deriving DecidableEq, Repr

/-- `ConvertedDocument.to_ds_document` (document.py:123-291): build the page
references and file info, route every assembled element, then assemble the
output document.  A missing page aborts the whole assembly (`none`). -/
def to_ds_document (cd : ConvertedDocument) : Option DsDocument :=
  let page_hashes := cd.pages.map (fun p => PageReference.mk p.page_hash p.page_no "default")
  let file_info : FileInfo :=
    { filename := cd.input.file
    , document_hash := cd.input.document_hash
    , num_pages := cd.input.page_count
    , page_hashes := page_hashes }
  match routeAll cd.pages { main_text := [], tables := [], figures := [] }
      cd.assembled.elements with
  | none => none
  | some acc =>
    some
      { name := ""
      , description_logs := []
      , file_info := file_info
      , main_text := acc.main_text
      , tables := acc.tables
      , figures := acc.figures
      , page_dimensions :=
          cd.pages.map (fun p => { page := p.page_no, height := p.size.height, width := p.size.width }) }

/-- The element loop with the receiver state threaded through every
iteration, as a Python method call has it available for mutation at each
step; each iteration reads `st.pages` and never assigns to `st`. -/
def routeAllRun (st : ConvertedDocument) (acc : RouteAcc) :
    List PageElement → Option RouteAcc × ConvertedDocument
  | [] => (some acc, st)
  | el :: rest =>
    match routeElement st.pages acc el with
    | none => (none, st)
    | some acc' => routeAllRun st acc' rest

/-- A call of `to_ds_document` as a state transformer: the returned
document (or failure) together with the receiver state after the call,
every read taken from the threaded state. -/
def to_ds_document_run (cd : ConvertedDocument) : Option DsDocument × ConvertedDocument :=
  match routeAllRun cd { main_text := [], tables := [], figures := [] }
      cd.assembled.elements with
  | (none, st) => (none, st)
  | (some acc, st) =>
    ( some
        { name := ""
        , description_logs := []
        , file_info :=
            { filename := st.input.file
            , document_hash := st.input.document_hash
            , num_pages := st.input.page_count
            , page_hashes :=
                st.pages.map (fun p => PageReference.mk p.page_hash p.page_no "default") }
        , main_text := acc.main_text
        , tables := acc.tables
        , figures := acc.figures
        , page_dimensions :=
            st.pages.map (fun p =>
              { page := p.page_no, height := p.size.height, width := p.size.width }) }
    , st )

/-- Arbitrary page used only as a `getD` placeholder where a lookup is
already known to succeed. -/
def defaultPage : Page :=
  { page_no := 0, page_hash := "", size := { width := 0, height := 0 } }

/-- The table built by one table-element iteration (document.py:168-250)
given the looked-up page. -/
def mkTableFor (page : Page) (el : PageElement) : DsSchemaTable :=
  match el with
  | .table label page_no bbox num_rows num_cols table_cells =>
    { num_cols := num_cols
    , num_rows := num_rows
    , obj_type := labelToDsType label
    , data := table_data page.size.height num_rows num_cols table_cells
    , prov := [{ bbox := to_bottom_left_origin bbox page.size.height
               , page := page_no, span := [0, 0] }] }
  | _ => { num_cols := 0, num_rows := 0, obj_type := none, data := [], prov := [] }

/-- The figure record built by one figure-element iteration
(document.py:252-274) given the looked-up page. -/
def mkFigureFor (page : Page) (el : PageElement) : BaseCell :=
  { prov := [{ bbox := to_bottom_left_origin el.bbox page.size.height
             , page := el.page_no, span := [0, 0] }]
  , obj_type := labelToDsType el.label }

/-- The Ref nodes a run of table elements emits, starting from a tables
list of length `t0`. -/
def tableRefsFrom (els : List PageElement) (t0 : Nat) : List MainTextItem :=
  match els with
  | [] => []
  | el :: rest =>
      .ref el.label (labelToDsType el.label) ("#/tables/" ++ toString t0)
        :: tableRefsFrom rest (t0 + 1)

/-- The Ref nodes a run of figure elements emits, starting from a figures
list of length `f0`. -/
def figureRefsFrom (els : List PageElement) (f0 : Nat) : List MainTextItem :=
  match els with
  | [] => []
  | el :: rest =>
      .ref el.label (labelToDsType el.label) ("#/figures/" ++ toString f0)
        :: figureRefsFrom rest (f0 + 1)

/-- A degenerate bounding box used in concrete examples. -/
def bb0 : BBox := { l := 0, t := 0, r := 0, b := 0 }

/-- A non-degenerate bounding box used in concrete examples. -/
def bb1 : BBox := { l := 1, t := 2, r := 3, b := 4 }

/-- Spec 8, end-to-end scenario: the single span covering rows 0-1 and
columns 0-1 with text `A` and the column-header flag set. -/
def spanA : TableCellDecl :=
  { start_row_offset_idx := 0, end_row_offset_idx := 2
  , start_col_offset_idx := 0, end_col_offset_idx := 2
  , text := "A", bbox := bb0, column_header := true, row_header := false }

/-- First of three declarations that all cover position (0,0) of a 1×1 grid. -/
def declA : TableCellDecl :=
  { start_row_offset_idx := 0, end_row_offset_idx := 1
  , start_col_offset_idx := 0, end_col_offset_idx := 1
  , text := "a", bbox := bb0, column_header := false, row_header := false }

/-- Second of three declarations that all cover position (0,0) of a 1×1 grid. -/
def declB : TableCellDecl :=
  { start_row_offset_idx := 0, end_row_offset_idx := 1
  , start_col_offset_idx := 0, end_col_offset_idx := 1
  , text := "b", bbox := bb0, column_header := false, row_header := false }

/-- Third of three declarations that all cover position (0,0) of a 1×1 grid. -/
def declC : TableCellDecl :=
  { start_row_offset_idx := 0, end_row_offset_idx := 1
  , start_col_offset_idx := 0, end_col_offset_idx := 1
  , text := "c", bbox := bb0, column_header := false, row_header := false }

/-- A declaration whose row range (5 to 10) lies entirely outside a 3-row
table: its clipped range is empty. -/
def cellDead : TableCellDecl :=
  { start_row_offset_idx := 5, end_row_offset_idx := 10
  , start_col_offset_idx := 0, end_col_offset_idx := 3
  , text := "x", bbox := bb0, column_header := false, row_header := false }

/-- A declaration with both header flags set. -/
def bothCell : TableCellDecl :=
  { start_row_offset_idx := 0, end_row_offset_idx := 1
  , start_col_offset_idx := 0, end_col_offset_idx := 1
  , text := "h", bbox := bb0, column_header := true, row_header := true }

/-- A concrete page (no. 1, 612 × 792). -/
def pageW : Page :=
  { page_no := 1, page_hash := "h1", size := { width := 612, height := 792 } }

/-- A figure element carrying a label outside the mapping table. -/
def elU : PageElement := .figure "Unknown-Foo" 1 bb0

/-- A concrete table element on page 1. -/
def elT : PageElement := .table "Table" 1 bb0 1 1 []

/-- A concrete figure element on page 1. -/
def elF : PageElement := .figure "Picture" 1 bb0

/-- A text element whose page (2) has no metadata entry in `[pageW]`. -/
def elMissing : PageElement := .text "Text" 2 bb0 "t"

/-- A concrete converted-document state. -/
def cdW : ConvertedDocument :=
  { input :=
      { file := "doc.pdf", document_hash := some "hash", valid := true
      , filesize := some 100, page_count := some 1 }
  , status := .success
  , errors := []
  , pages := [pageW]
  , assembled := { elements := [elT, elU] }
  , output := none }

theorem mem_pyRange {a b m : Nat} : m ∈ pyRange a b ↔ a ≤ m ∧ m < b := by
  unfold pyRange
  rw [List.mem_range']
  constructor
  · rintro ⟨i, hi, rfl⟩
    omega
  · intro h
    exact ⟨m - a, by omega, by omega⟩

theorem mem_make_spans (cell : TableCellDecl) (R C : Nat) (p : Nat × Nat) :
    p ∈ make_spans cell R C ↔ covers cell R C p.1 p.2 = true := by
  obtain ⟨i, j⟩ := p
  simp only [make_spans, rowIdxs, colIdxs, covers, List.mem_flatMap, List.mem_map,
    mem_pyRange, Prod.mk.injEq, Bool.and_eq_true, decide_eq_true_eq]
  constructor
  · rintro ⟨a, ⟨ha1, ha2⟩, b, ⟨hb1, hb2⟩, rfl, rfl⟩
    omega
  · rintro ⟨⟨⟨⟨⟨h1, h2⟩, h3⟩, h4⟩, h5⟩, h6⟩
    exact ⟨i, by omega, j, by omega, rfl, rfl⟩

theorem covers_lt {cell : TableCellDecl} {R C i j : Nat}
    (h : covers cell R C i j = true) : i < R ∧ j < C := by
  simp only [covers, Bool.and_eq_true, decide_eq_true_eq] at h
  omega

theorem gridShape_initGrid (R C : Nat) : gridShape (initGrid R C) R C := by
  constructor
  · simp [initGrid]
  · intro row hrow
    simp only [initGrid, List.mem_map, List.mem_range] at hrow
    obtain ⟨i, _, rfl⟩ := hrow
    simp

theorem gridShape_setCell {g : Grid} {R C : Nat} (hg : gridShape g R C)
    (i j : Nat) (c : TableCell) : gridShape (setCell g i j c) R C := by
  obtain ⟨hlen, hrow⟩ := hg
  by_cases hi : i < g.length
  · constructor
    · simpa [setCell] using hlen
    · intro row hrow'
      rcases List.mem_or_eq_of_mem_set hrow' with h | h
      · exact hrow _ h
      · subst h
        rw [List.length_set, List.getElem?_eq_getElem hi]
        exact hrow _ (List.getElem_mem hi)
  · have : setCell g i j c = g := by
      unfold setCell
      exact List.set_eq_of_length_le (by omega)
    rw [this]
    exact ⟨hlen, hrow⟩

theorem gridGet_setCell_same {g : Grid} {i j : Nat} (hi : i < g.length)
    (hj : j < (g[i]?.getD []).length) (c : TableCell) :
    gridGet (setCell g i j c) i j = c := by
  have hrow : g[i]? = some g[i] := List.getElem?_eq_getElem hi
  rw [hrow] at hj
  simp only [Option.getD_some] at hj
  unfold gridGet setCell
  rw [List.getElem?_set_self', hrow]
  simp only [Option.map_some, Function.const_apply, Option.getD_some]
  rw [List.getElem?_set_eq_of_lt _ hj]
  rfl

theorem gridGet_setCell_ne {g : Grid} {i j i' j' : Nat}
    (h : (i, j) ≠ (i', j')) (c : TableCell) :
    gridGet (setCell g i j c) i' j' = gridGet g i' j' := by
  unfold gridGet setCell
  by_cases hii : i = i'
  · subst hii
    have hjj : j ≠ j' := by
      intro h2
      exact h (by rw [h2])
    rw [List.getElem?_set_self']
    cases hg : g[i]? with
    | none => simp
    | some row =>
      simp only [Option.map_some, Function.const_apply, Option.getD_some, hg]
      rw [List.getElem?_set_ne hjj]
  · rw [List.getElem?_set_ne hii]

theorem gridGet_foldl_setCell {R C : Nat} (v : TableCell) :
    ∀ (ps : List (Nat × Nat)) (g : Grid), gridShape g R C →
      (∀ p ∈ ps, p.1 < R ∧ p.2 < C) → ∀ i j,
      gridGet (ps.foldl (fun g p => setCell g p.1 p.2 v) g) i j =
        if (i, j) ∈ ps then v else gridGet g i j := by
  intro ps
  induction ps with
  | nil =>
    intro g _ _ i j
    simp
  | cons p rest ih =>
    intro g hg hps i j
    rw [List.foldl_cons, ih _ (gridShape_setCell hg _ _ _)
      (fun q hq => hps q (List.mem_cons_of_mem _ hq))]
    by_cases hmem : (i, j) ∈ rest
    · simp [hmem]
    · by_cases hp : (i, j) = p
      · subst hp
        rw [if_neg hmem, if_pos (List.mem_cons_self _ _)]
        have hb := hps _ (List.mem_cons_self _ _)
        obtain ⟨hlen, hrowlen⟩ := hg
        have hi : i < g.length := by omega
        have hj : j < (g[i]?.getD []).length := by
          rw [List.getElem?_eq_getElem hi]
          simp only [Option.getD_some]
          rw [hrowlen _ (List.getElem_mem hi)]
          exact hb.2
        exact gridGet_setCell_same hi hj v
      · rw [if_neg hmem, gridGet_setCell_ne (Ne.symm hp) v,
          if_neg (by simp [hmem, hp])]

theorem gridShape_foldl_setCell {R C : Nat} (v : TableCell) :
    ∀ (ps : List (Nat × Nat)) (g : Grid), gridShape g R C →
      gridShape (ps.foldl (fun g p => setCell g p.1 p.2 v) g) R C
  | [], _, hg => hg
  | _ :: rest, _, hg =>
    gridShape_foldl_setCell v rest _ (gridShape_setCell hg _ _ _)

theorem gridShape_applyCell {g : Grid} {R C : Nat} (H : ℚ) (cell : TableCellDecl)
    (hg : gridShape g R C) : gridShape (applyCell H R C g cell) R C :=
  gridShape_foldl_setCell _ _ _ hg

theorem gridGet_applyCell {g : Grid} {R C : Nat} (H : ℚ) (cell : TableCellDecl)
    (hg : gridShape g R C) (i j : Nat) :
    gridGet (applyCell H R C g cell) i j =
      if covers cell R C i j then overwriteCell H R C cell else gridGet g i j := by
  unfold applyCell
  rw [gridGet_foldl_setCell _ _ _ hg
    (fun p hp => covers_lt ((mem_make_spans cell R C p).1 hp)) i j]
  simp only [mem_make_spans cell R C (i, j)]

theorem gridShape_foldl_applyCell (H : ℚ) (R C : Nat) :
    ∀ (cells : List TableCellDecl) (g : Grid), gridShape g R C →
      gridShape (cells.foldl (applyCell H R C) g) R C
  | [], _, hg => hg
  | c :: rest, _, hg =>
    gridShape_foldl_applyCell H R C rest _ (gridShape_applyCell H c hg)

theorem gridShape_table_data (H : ℚ) (R C : Nat) (cells : List TableCellDecl) :
    gridShape (table_data H R C cells) R C :=
  gridShape_foldl_applyCell H R C cells _ (gridShape_initGrid R C)

theorem foldl_lastCover_init (R C i j : Nat) :
    ∀ (cells : List TableCellDecl) (a : Option TableCellDecl),
      cells.foldl (fun acc c => if covers c R C i j then some c else acc) a =
        match lastCover cells R C i j with
        | some c => some c
        | none => a := by
  intro cells
  induction cells with
  | nil =>
    intro a
    simp [lastCover]
  | cons d rest ih =>
    intro a
    have hR : lastCover (d :: rest) R C i j =
        rest.foldl (fun acc c => if covers c R C i j then some c else acc)
          (if covers d R C i j then some d else none) := by
      simp [lastCover]
    rw [List.foldl_cons, ih, hR, ih]
    cases lastCover rest R C i j with
    | none => by_cases h : covers d R C i j = true <;> simp [h]
    | some x => simp

theorem lastCover_cons (d : TableCellDecl) (rest : List TableCellDecl) (R C i j : Nat) :
    lastCover (d :: rest) R C i j =
      match lastCover rest R C i j with
      | some x => some x
      | none => if covers d R C i j then some d else none := by
  have hR : lastCover (d :: rest) R C i j =
      rest.foldl (fun acc c => if covers c R C i j then some c else acc)
        (if covers d R C i j then some d else none) := by
    simp [lastCover]
  rw [hR, foldl_lastCover_init]

theorem gridGet_foldl_applyCell (H : ℚ) (R C i j : Nat) :
    ∀ (cells : List TableCellDecl) (g : Grid), gridShape g R C →
      gridGet (cells.foldl (applyCell H R C) g) i j =
        match lastCover cells R C i j with
        | some c => overwriteCell H R C c
        | none => gridGet g i j := by
  intro cells
  induction cells with
  | nil =>
    intro g _
    simp [lastCover]
  | cons c rest ih =>
    intro g hg
    rw [List.foldl_cons, ih _ (gridShape_applyCell H c hg), lastCover_cons,
      gridGet_applyCell H c hg]
    cases lastCover rest R C i j with
    | none => by_cases h : covers c R C i j = true <;> simp [h]
    | some x => simp

theorem gridGet_table_data (H : ℚ) (R C i j : Nat) (cells : List TableCellDecl) :
    gridGet (table_data H R C cells) i j =
      match lastCover cells R C i j with
      | some c => overwriteCell H R C c
      | none => gridGet (initGrid R C) i j :=
  gridGet_foldl_applyCell H R C i j cells _ (gridShape_initGrid R C)

theorem gridGet_initGrid {R C i j : Nat} (hi : i < R) (hj : j < C) :
    gridGet (initGrid R C) i j = emptyCell i j := by
  unfold gridGet initGrid
  rw [List.getElem?_map, List.getElem?_range hi]
  simp only [Option.map_some', Option.getD_some]
  rw [List.getElem?_map, List.getElem?_range hj]
  rfl

theorem lastCover_eq_none {cells : List TableCellDecl} {R C i j : Nat} :
    lastCover cells R C i j = none ↔ ∀ c ∈ cells, covers c R C i j = false := by
  induction cells with
  | nil => simp [lastCover]
  | cons d rest ih =>
    rw [lastCover_cons, List.forall_mem_cons]
    cases h : lastCover rest R C i j with
    | some x =>
      constructor
      · intro hfalse
        exact absurd hfalse (by simp)
      · rintro ⟨_, hall⟩
        have hn := ih.2 hall
        rw [h] at hn
        exact absurd hn (by simp)
    | none =>
      have hall := ih.1 h
      by_cases hd : covers d R C i j = true
      · rw [if_pos hd]
        constructor
        · intro hfalse
          exact absurd hfalse (by simp)
        · rintro ⟨hdf, _⟩
          rw [hd] at hdf
          exact absurd hdf (by simp)
      · rw [if_neg hd]
        have hdf : covers d R C i j = false := by
          revert hd
          cases covers d R C i j <;> simp
        exact ⟨fun _ => ⟨hdf, hall⟩, fun _ => rfl⟩

theorem lastCover_eq_some_of {cells : List TableCellDecl} {R C i j k : Nat}
    {c : TableCellDecl} (hk : cells[k]? = some c) (hcov : covers c R C i j = true)
    (hlast : ∀ k' c', k < k' → cells[k']? = some c' → covers c' R C i j = false) :
    lastCover cells R C i j = some c := by
  induction cells generalizing k with
  | nil => simp at hk
  | cons d rest ih =>
    rw [lastCover_cons]
    cases k with
    | zero =>
      simp only [List.getElem?_cons_zero, Option.some.injEq] at hk
      subst hk
      have hnone : lastCover rest R C i j = none := by
        rw [lastCover_eq_none]
        intro c' hc'
        obtain ⟨m, hm⟩ := List.mem_iff_getElem?.1 hc'
        exact hlast (m + 1) c' (by omega) (by simpa using hm)
      rw [hnone]
      simp [hcov]
    | succ n =>
      rw [ih (by simpa using hk)
        (fun k' c' h1 h2 => hlast (k' + 1) c' (by omega) (by simpa using h2))]

theorem page_no_to_page_isSome {pages : List Page} {n : Nat} :
    (page_no_to_page pages n).isSome = true ↔ ∃ p ∈ pages, p.page_no = n := by
  unfold page_no_to_page
  rw [List.find?_isSome]
  simp [List.mem_reverse]

theorem routeElement_isSome (pages : List Page) (acc : RouteAcc) (el : PageElement) :
    (routeElement pages acc el).isSome = true ↔
      (page_no_to_page pages el.page_no).isSome = true := by
  cases el <;>
    · unfold routeElement
      cases h : page_no_to_page pages _ <;> simp [h, PageElement.page_no]

theorem routeAll_isSome {pages : List Page} :
    ∀ {els : List PageElement} {acc : RouteAcc},
      (routeAll pages acc els).isSome = true ↔
        ∀ e ∈ els, (page_no_to_page pages e.page_no).isSome = true := by
  intro els
  induction els with
  | nil =>
    intro acc
    simp [routeAll]
  | cons el rest ih =>
    intro acc
    rw [routeAll, List.forall_mem_cons]
    cases h : routeElement pages acc el with
    | none =>
      have hel : ¬ (page_no_to_page pages el.page_no).isSome = true := by
        rw [← routeElement_isSome pages acc el]
        simp [h]
      simp [hel]
    | some acc' =>
      have hel : (page_no_to_page pages el.page_no).isSome = true := by
        rw [← routeElement_isSome pages acc el]
        simp [h]
      rw [ih]
      simp [hel]

theorem routeAllRun_snd (st : ConvertedDocument) :
    ∀ (els : List PageElement) (acc : RouteAcc), (routeAllRun st acc els).2 = st
  | [], _ => rfl
  | el :: rest, acc => by
    rw [routeAllRun]
    cases routeElement st.pages acc el with
    | none => rfl
    | some acc' => exact routeAllRun_snd st rest acc'

theorem routeAllRun_fst (st : ConvertedDocument) :
    ∀ (els : List PageElement) (acc : RouteAcc),
      (routeAllRun st acc els).1 = routeAll st.pages acc els
  | [], _ => rfl
  | el :: rest, acc => by
    rw [routeAllRun, routeAll]
    cases routeElement st.pages acc el with
    | none => rfl
    | some acc' => exact routeAllRun_fst st rest acc'

theorem routeAll_tables_spec (pages : List Page) :
    ∀ (els : List PageElement) (acc acc' : RouteAcc),
      (∀ e ∈ els, e.isTable = true) → routeAll pages acc els = some acc' →
      acc' = { main_text := acc.main_text ++ tableRefsFrom els acc.tables.length
             , tables := acc.tables ++ els.map (fun el =>
                 mkTableFor ((page_no_to_page pages el.page_no).getD defaultPage) el)
             , figures := acc.figures } := by
  intro els
  induction els with
  | nil =>
    intro acc acc' _ h
    rw [routeAll] at h
    simp only [Option.some.injEq] at h
    subst h
    simp [tableRefsFrom]
  | cons el rest ih =>
    intro acc acc' hall h
    have hel := hall el (by simp)
    cases el with
    | text _ _ _ _ => simp [PageElement.isTable] at hel
    | figure _ _ _ => simp [PageElement.isTable] at hel
    | table label pno bb nr nc cells =>
      rw [routeAll] at h
      cases hlk : routeElement pages acc (.table label pno bb nr nc cells) with
      | none =>
        rw [hlk] at h
        exact absurd h (by simp)
      | some acc₁ =>
        rw [hlk] at h
        unfold routeElement at hlk
        simp only [PageElement.page_no] at hlk
        cases hpg : page_no_to_page pages pno with
        | none =>
          rw [hpg] at hlk
          exact absurd hlk (by simp)
        | some pg =>
          rw [hpg] at hlk
          simp only [Option.some.injEq] at hlk
          have ihh := ih acc₁ acc' (fun e he => hall e (by simp [he])) h
          subst hlk
          rw [ihh]
          simp only [tableRefsFrom, List.map_cons, mkTableFor, PageElement.page_no,
            hpg, Option.getD_some, List.length_append, List.length_cons,
            List.length_nil, List.append_assoc, List.singleton_append]
          constructor

theorem routeAll_figures_spec (pages : List Page) :
    ∀ (els : List PageElement) (acc acc' : RouteAcc),
      (∀ e ∈ els, e.isFigure = true) → routeAll pages acc els = some acc' →
      acc' = { main_text := acc.main_text ++ figureRefsFrom els acc.figures.length
             , tables := acc.tables
             , figures := acc.figures ++ els.map (fun el =>
                 mkFigureFor ((page_no_to_page pages el.page_no).getD defaultPage) el) } := by
  intro els
  induction els with
  | nil =>
    intro acc acc' _ h
    rw [routeAll] at h
    simp only [Option.some.injEq] at h
    subst h
    simp [figureRefsFrom]
  | cons el rest ih =>
    intro acc acc' hall h
    have hel := hall el (by simp)
    cases el with
    | text _ _ _ _ => simp [PageElement.isFigure] at hel
    | table _ _ _ _ _ _ => simp [PageElement.isFigure] at hel
    | figure label pno bb =>
      rw [routeAll] at h
      cases hlk : routeElement pages acc (.figure label pno bb) with
      | none =>
        rw [hlk] at h
        exact absurd h (by simp)
      | some acc₁ =>
        rw [hlk] at h
        unfold routeElement at hlk
        simp only [PageElement.page_no] at hlk
        cases hpg : page_no_to_page pages pno with
        | none =>
          rw [hpg] at hlk
          exact absurd hlk (by simp)
        | some pg =>
          rw [hpg] at hlk
          simp only [Option.some.injEq] at hlk
          have ihh := ih acc₁ acc' (fun e he => hall e (by simp [he])) h
          subst hlk
          rw [ihh]
          simp only [figureRefsFrom, List.map_cons, mkFigureFor, PageElement.page_no,
            PageElement.label, PageElement.bbox, hpg, Option.getD_some,
            List.length_append, List.length_cons, List.length_nil,
            List.append_assoc, List.singleton_append]

theorem tableRefsFrom_length :
    ∀ (els : List PageElement) (t0 : Nat), (tableRefsFrom els t0).length = els.length
  | [], _ => rfl
  | _ :: rest, t0 => by
    simp [tableRefsFrom, tableRefsFrom_length rest (t0 + 1)]

theorem figureRefsFrom_length :
    ∀ (els : List PageElement) (f0 : Nat), (figureRefsFrom els f0).length = els.length
  | [], _ => rfl
  | _ :: rest, f0 => by
    simp [figureRefsFrom, figureRefsFrom_length rest (f0 + 1)]

theorem tableRefsFrom_getElem? :
    ∀ (els : List PageElement) (t0 k : Nat) (e : PageElement), els[k]? = some e →
      (tableRefsFrom els t0)[k]? =
        some (.ref e.label (labelToDsType e.label) ("#/tables/" ++ toString (t0 + k)))
  | [], _, k, _, h => by simp at h
  | el :: rest, t0, 0, e, h => by
    simp only [List.getElem?_cons_zero, Option.some.injEq] at h
    subst h
    simp [tableRefsFrom]
  | el :: rest, t0, k + 1, e, h => by
    simp only [List.getElem?_cons_succ] at h
    have hrec := tableRefsFrom_getElem? rest (t0 + 1) k e h
    have harith : t0 + 1 + k = t0 + (k + 1) := by omega
    rw [harith] at hrec
    simpa [tableRefsFrom] using hrec

theorem figureRefsFrom_getElem? :
    ∀ (els : List PageElement) (f0 k : Nat) (e : PageElement), els[k]? = some e →
      (figureRefsFrom els f0)[k]? =
        some (.ref e.label (labelToDsType e.label) ("#/figures/" ++ toString (f0 + k)))
  | [], _, k, _, h => by simp at h
  | el :: rest, f0, 0, e, h => by
    simp only [List.getElem?_cons_zero, Option.some.injEq] at h
    subst h
    simp [figureRefsFrom]
  | el :: rest, f0, k + 1, e, h => by
    simp only [List.getElem?_cons_succ] at h
    have hrec := figureRefsFrom_getElem? rest (f0 + 1) k e h
    have harith : f0 + 1 + k = f0 + (k + 1) := by omega
    rw [harith] at hrec
    simpa [figureRefsFrom] using hrec

/-- C1: for every declared row count, column count and span list, the
reconstructed grid has exactly `R` rows of exactly `C` cells each (`R*C`
positions in all, each holding one `TableCell`), and every position not
covered by any span declaration holds the synthetic empty body cell:
text `""`, no bounding box, span set exactly its own `(i, j)`. -/
theorem claim_C1 (H : ℚ) (R C : Nat) (cells : List TableCellDecl) :
    (table_data H R C cells).length = R ∧
    (∀ row ∈ table_data H R C cells, row.length = C) ∧
    (table_data H R C cells).flatten.length = R * C ∧
    (∀ i j, i < R → j < C → (∀ c ∈ cells, covers c R C i j = false) →
      gridGet (table_data H R C cells) i j = emptyCell i j) := by
  obtain ⟨hlen, hrow⟩ := gridShape_table_data H R C cells
  refine ⟨hlen, hrow, ?_, ?_⟩
  · rw [List.length_flatten]
    have hrep : (table_data H R C cells).map List.length = List.replicate R C := by
      rw [List.eq_replicate_iff]
      constructor
      · simp [hlen]
      · intro b hb
        simp only [List.mem_map] at hb
        obtain ⟨row, hrowmem, rfl⟩ := hb
        exact hrow _ hrowmem
    rw [hrep, List.sum_replicate]
    simp [smul_eq_mul]
  · intro i j hi hj hnone
    rw [gridGet_table_data, lastCover_eq_none.2 hnone]
    exact gridGet_initGrid hi hj

theorem claim_C1_witness :
    gridGet (table_data 792 2 2 [cellDead]) 0 0 = emptyCell 0 0 :=
  (claim_C1 792 2 2 [cellDead]).2.2.2 0 0 (by decide) (by decide) (by decide)

/-- C2, as stated, is false: with three declarations `a`, `b`, `c` (in that
input order) all covering position `(0, 0)` of a 1×1 grid, the pair
`(a, b)` both cover `(0, 0)`, yet the final cell there carries the text of
`c`, not of `b` (the later of the two). -/
theorem claim_C2_counterexample :
    ¬ (∀ (H : ℚ) (R C : Nat) (cells : List TableCellDecl) (k₁ k₂ i j : Nat)
         (c₁ c₂ : TableCellDecl),
        k₁ < k₂ → cells[k₁]? = some c₁ → cells[k₂]? = some c₂ →
        covers c₁ R C i j = true → covers c₂ R C i j = true →
        (gridGet (table_data H R C cells) i j).text = c₂.text ∧
        (gridGet (table_data H R C cells) i j).obj_type = celltype c₂ ∧
        (gridGet (table_data H R C cells) i j).bbox =
          some (to_bottom_left_origin c₂.bbox H)) := by
  intro h
  have hb := (h 0 1 1 [declA, declB, declC] 0 1 0 0 declA declB (by decide) (by decide)
    (by decide) (by decide) (by decide)).1
  have hc : (gridGet (table_data 0 1 1 [declA, declB, declC]) 0 0).text = "c" := by decide
  rw [hc] at hb
  exact absurd hb (by decide)

/-- C2 (amended): for any two declarations both covering a grid position,
the cell stored at that position carries the text, kind and bounding box of
the later one, provided that later declaration is the last declaration in
input order covering the position (last-write-wins over the whole list). -/
theorem claim_C2 (H : ℚ) (R C : Nat) (cells : List TableCellDecl)
    (i j k : Nat) (c : TableCellDecl)
    (hk : cells[k]? = some c) (hcov : covers c R C i j = true)
    (hlast : ∀ k' c', k < k' → cells[k']? = some c' → covers c' R C i j = false) :
    (gridGet (table_data H R C cells) i j).text = c.text ∧
    (gridGet (table_data H R C cells) i j).obj_type = celltype c ∧
    (gridGet (table_data H R C cells) i j).bbox =
      some (to_bottom_left_origin c.bbox H) := by
  have h := gridGet_table_data H R C i j cells
  rw [lastCover_eq_some_of hk hcov hlast] at h
  rw [h]
  exact ⟨rfl, rfl, rfl⟩

theorem claim_C2_witness :
    (gridGet (table_data 0 1 1 [declA, declB]) 0 0).text = "b" :=
  (claim_C2 0 1 1 [declA, declB] 0 0 1 declB (by decide) (by decide)
    (fun k' c' hgt hsome => by
      rw [List.getElem?_eq_none (by simp; omega)] at hsome
      exact absurd hsome (by simp))).1

/-- C3: the set of grid positions a declaration overwrites (equally, its
recorded span set) is exactly its declared row range intersected with
`[0, R)` crossed with its declared column range intersected with `[0, C)`;
a declaration whose clipped range is empty overwrites nothing, and the
whole reconstruction behaves as if it were absent. -/
theorem claim_C3 (cell : TableCellDecl) (R C i j : Nat) :
    ((i, j) ∈ make_spans cell R C ↔
      (cell.start_row_offset_idx ≤ i ∧ i < cell.end_row_offset_idx ∧ i < R ∧
       cell.start_col_offset_idx ≤ j ∧ j < cell.end_col_offset_idx ∧ j < C)) ∧
    (∀ (H : ℚ) (g : Grid), make_spans cell R C = [] → applyCell H R C g cell = g) ∧
    (∀ (H : ℚ) (pre post : List TableCellDecl), make_spans cell R C = [] →
      table_data H R C (pre ++ cell :: post) = table_data H R C (pre ++ post)) := by
  refine ⟨?_, ?_, ?_⟩
  · rw [mem_make_spans]
    simp only [covers, Bool.and_eq_true, decide_eq_true_eq]
    omega
  · intro H g hempty
    unfold applyCell
    rw [hempty]
    rfl
  · intro H pre post hempty
    unfold table_data
    rw [List.foldl_append, List.foldl_append, List.foldl_cons]
    have : applyCell H R C (pre.foldl (applyCell H R C) (initGrid R C)) cell =
        pre.foldl (applyCell H R C) (initGrid R C) := by
      unfold applyCell
      rw [hempty]
      rfl
    rw [this]

theorem claim_C3_witness :
    applyCell 792 3 3 (initGrid 3 3) cellDead = initGrid 3 3 :=
  (claim_C3 cellDead 3 3 0 0).2.1 792 (initGrid 3 3) (by decide)

/-- C5: in the 2×2 scenario with the single all-covering column-header
span `spanA`, every one of the four positions holds the same cell, with
text `A`, kind `col_header` and span set `{(0,0),(0,1),(1,0),(1,1)}`; and
in general processing one declaration writes the one shared
`overwriteCell` value at every position of its clipped range, its span set
being the full clipped range. -/
theorem claim_C5 :
    (∀ i j, i < 2 → j < 2 →
      gridGet (table_data 792 2 2 [spanA]) i j =
        { text := "A"
        , bbox := some (to_bottom_left_origin spanA.bbox 792)
        , spans := [(0, 0), (0, 1), (1, 0), (1, 1)]
        , obj_type := "col_header" }) ∧
    (∀ (H : ℚ) (R C : Nat) (g : Grid) (cell : TableCellDecl) (i j : Nat),
      gridShape g R C → covers cell R C i j = true →
      gridGet (applyCell H R C g cell) i j = overwriteCell H R C cell ∧
      (overwriteCell H R C cell).spans = make_spans cell R C) := by
  constructor
  · intro i j hi hj
    have h := gridGet_applyCell 792 spanA (gridShape_initGrid 2 2) i j
    have hcov : covers spanA 2 2 i j = true := by
      interval_cases i <;> interval_cases j <;> decide
    rw [show table_data 792 2 2 [spanA] = applyCell 792 2 2 (initGrid 2 2) spanA from rfl,
      h, if_pos hcov]
    rfl
  · intro H R C g cell i j hg hcov
    rw [gridGet_applyCell H cell hg i j, if_pos hcov]
    exact ⟨rfl, rfl⟩

theorem claim_C5_witness :
    gridGet (table_data 792 2 2 [spanA]) 1 1 =
      { text := "A"
      , bbox := some (to_bottom_left_origin spanA.bbox 792)
      , spans := [(0, 0), (0, 1), (1, 0), (1, 1)]
      , obj_type := "col_header" } :=
  claim_C5.1 1 1 (by decide) (by decide)

/-- C7: coordinate normalization maps `(l, t, r, b)` to
`(l, h - b, r, h - t)`, leaving left and right unchanged, and applying it
twice with the same page height is the identity. -/
theorem claim_C7 (bb : BBox) (h : ℚ) (hpos : 0 < h) :
    to_bottom_left_origin (to_bottom_left_origin bb h) h = bb ∧
    (to_bottom_left_origin bb h).l = bb.l ∧
    (to_bottom_left_origin bb h).r = bb.r ∧
    (to_bottom_left_origin bb h).t = h - bb.b ∧
    (to_bottom_left_origin bb h).b = h - bb.t := by
  cases bb with
  | mk l t r b =>
    refine ⟨?_, rfl, rfl, rfl, rfl⟩
    simp [to_bottom_left_origin]

theorem claim_C7_witness :
    to_bottom_left_origin (to_bottom_left_origin bb1 792) 792 = bb1 :=
  (claim_C7 bb1 792 (by norm_num)).1

/-- C9: the kind written into the grid for a declaration is `col_header`
when the column-header flag is set (regardless of the row-header flag),
else `row_header` when the row-header flag is set, else `body`. -/
theorem claim_C9 (H : ℚ) (R C : Nat) (cell : TableCellDecl) :
    (cell.column_header = true →
      (overwriteCell H R C cell).obj_type = "col_header") ∧
    (cell.column_header = false → cell.row_header = true →
      (overwriteCell H R C cell).obj_type = "row_header") ∧
    (cell.column_header = false → cell.row_header = false →
      (overwriteCell H R C cell).obj_type = "body") := by
  refine ⟨fun h1 => ?_, fun h1 h2 => ?_, fun h1 h2 => ?_⟩
  · simp [overwriteCell, celltype, h1]
  · simp [overwriteCell, celltype, h1, h2]
  · simp [overwriteCell, celltype, h1, h2]

theorem claim_C9_witness :
    (overwriteCell 792 1 1 bothCell).obj_type = "col_header" :=
  (claim_C9 792 1 1 bothCell).1 rfl

/-- C4: routing N table elements in sequence emits Reference nodes
`#/tables/0 .. #/tables/N-1` in order, each index equal to the position of
the corresponding reconstructed table in the tables list (the length
before the append); likewise for figure elements and `#/figures/<n>`. -/
theorem claim_C4 (pages : List Page) (els : List PageElement) (acc' : RouteAcc) :
    ((∀ e ∈ els, e.isTable = true) →
      routeAll pages { main_text := [], tables := [], figures := [] } els = some acc' →
      acc'.main_text.length = els.length ∧ acc'.tables.length = els.length ∧
      ∀ (k : Nat) (e : PageElement), els[k]? = some e →
        acc'.main_text[k]? = some (MainTextItem.ref e.label (labelToDsType e.label)
            ("#/tables/" ++ toString k)) ∧
        acc'.tables[k]? =
          some (mkTableFor ((page_no_to_page pages e.page_no).getD defaultPage) e)) ∧
    ((∀ e ∈ els, e.isFigure = true) →
      routeAll pages { main_text := [], tables := [], figures := [] } els = some acc' →
      acc'.main_text.length = els.length ∧ acc'.figures.length = els.length ∧
      ∀ (k : Nat) (e : PageElement), els[k]? = some e →
        acc'.main_text[k]? = some (MainTextItem.ref e.label (labelToDsType e.label)
            ("#/figures/" ++ toString k)) ∧
        acc'.figures[k]? =
          some (mkFigureFor ((page_no_to_page pages e.page_no).getD defaultPage) e)) := by
  constructor
  · intro hall h
    have hs := routeAll_tables_spec pages els
      { main_text := [], tables := [], figures := [] } acc' hall h
    subst hs
    refine ⟨by simp [tableRefsFrom_length], by simp, ?_⟩
    intro k e hk
    constructor
    · have := tableRefsFrom_getElem? els 0 k e hk
      simpa using this
    · simp [List.getElem?_map, hk]
  · intro hall h
    have hs := routeAll_figures_spec pages els
      { main_text := [], tables := [], figures := [] } acc' hall h
    subst hs
    refine ⟨by simp [figureRefsFrom_length], by simp, ?_⟩
    intro k e hk
    constructor
    · have := figureRefsFrom_getElem? els 0 k e hk
      simpa using this
    · simp [List.getElem?_map, hk]

theorem claim_C4_witness :
    ∃ accT accF : RouteAcc,
      routeAll [pageW] { main_text := [], tables := [], figures := [] } [elT, elT] =
        some accT ∧
      accT.main_text[1]? =
        some (MainTextItem.ref "Table" (labelToDsType "Table") "#/tables/1") ∧
      accT.tables.length = 2 ∧
      routeAll [pageW] { main_text := [], tables := [], figures := [] } [elF] =
        some accF ∧
      accF.main_text[0]? =
        some (MainTextItem.ref "Picture" (labelToDsType "Picture") "#/figures/0") := by
  obtain ⟨accT, hT⟩ : ∃ a, routeAll [pageW]
      { main_text := [], tables := [], figures := [] } [elT, elT] = some a := ⟨_, rfl⟩
  obtain ⟨accF, hF⟩ : ∃ a, routeAll [pageW]
      { main_text := [], tables := [], figures := [] } [elF] = some a := ⟨_, rfl⟩
  have hTs := (claim_C4 [pageW] [elT, elT] accT).1 (by decide) hT
  have hFs := (claim_C4 [pageW] [elF] accF).2 (by decide) hF
  exact ⟨accT, accF, hT, (hTs.2.2 1 elT (by decide)).1, hTs.2.1,
    hF, (hFs.2.2 0 elF (by decide)).1⟩

/-- C6: whole-document assembly succeeds exactly when every assembled
element's page number has a metadata entry in `pages`; a single missing
page aborts the whole assembly with no partial output. -/
theorem claim_C6 (cd : ConvertedDocument) :
    (to_ds_document cd).isSome = true ↔
      ∀ e ∈ cd.assembled.elements, ∃ p ∈ cd.pages, p.page_no = e.page_no := by
  have key : (to_ds_document cd).isSome = true ↔
      (routeAll cd.pages { main_text := [], tables := [], figures := [] }
        cd.assembled.elements).isSome = true := by
    unfold to_ds_document
    cases routeAll cd.pages { main_text := [], tables := [], figures := [] }
      cd.assembled.elements <;> simp
  rw [key, routeAll_isSome]
  constructor
  · intro hall e he
    exact page_no_to_page_isSome.1 (hall e he)
  · intro hall e he
    exact page_no_to_page_isSome.2 (hall e he)

/-- C8: every label in the fixed mapping table maps to its documented
semantic type; a label outside the table maps to `none`; and routing never
fails on the label: any element whose page is present is dispatched to its
channel by its structural variant alone. -/
theorem claim_C8 :
    (labelToDsType "Title" = some "title" ∧
     labelToDsType "Document Index" = some "table-of-path_or_stream" ∧
     labelToDsType "Section-header" = some "subtitle-level-1" ∧
     labelToDsType "Checkbox-Selected" = some "checkbox-selected" ∧
     labelToDsType "Checkbox-Unselected" = some "checkbox-unselected" ∧
     labelToDsType "Caption" = some "caption" ∧
     labelToDsType "Page-header" = some "page-header" ∧
     labelToDsType "Page-footer" = some "page-footer" ∧
     labelToDsType "Footnote" = some "footnote" ∧
     labelToDsType "Table" = some "table" ∧
     labelToDsType "Formula" = some "equation" ∧
     labelToDsType "List-item" = some "paragraph" ∧
     labelToDsType "Code" = some "paragraph" ∧
     labelToDsType "Picture" = some "figure" ∧
     labelToDsType "Text" = some "paragraph") ∧
    (∀ label : String, (∀ p ∈ layout_label_to_ds_type, p.1 ≠ label) →
      labelToDsType label = none) ∧
    (∀ (pages : List Page) (acc : RouteAcc) (el : PageElement) (page : Page),
      page_no_to_page pages el.page_no = some page →
      ∃ acc', routeElement pages acc el = some acc' ∧
        (el.isText = true → acc'.main_text.length = acc.main_text.length + 1 ∧
          acc'.tables = acc.tables ∧ acc'.figures = acc.figures) ∧
        (el.isTable = true → acc'.tables.length = acc.tables.length + 1) ∧
        (el.isFigure = true → acc'.figures.length = acc.figures.length + 1)) := by
  refine ⟨by decide, ?_, ?_⟩
  · intro label hall
    unfold labelToDsType
    rw [List.find?_eq_none.2 (fun p hp => by simpa using hall p hp)]
    rfl
  · intro pages acc el page hpg
    cases el with
    | text label pno bb txt =>
      simp only [PageElement.page_no] at hpg
      simp only [routeElement, PageElement.page_no, hpg]
      refine ⟨_, rfl, ?_, ?_, ?_⟩
      · intro _
        exact ⟨by simp, rfl, rfl⟩
      · intro hfalse
        exact absurd hfalse (by simp [PageElement.isTable])
      · intro hfalse
        exact absurd hfalse (by simp [PageElement.isFigure])
    | table label pno bb nr nc cells =>
      simp only [PageElement.page_no] at hpg
      simp only [routeElement, PageElement.page_no, hpg]
      refine ⟨_, rfl, ?_, ?_, ?_⟩
      · intro hfalse
        exact absurd hfalse (by simp [PageElement.isText])
      · intro _
        simp
      · intro hfalse
        exact absurd hfalse (by simp [PageElement.isFigure])
    | figure label pno bb =>
      simp only [PageElement.page_no] at hpg
      simp only [routeElement, PageElement.page_no, hpg]
      refine ⟨_, rfl, ?_, ?_, ?_⟩
      · intro hfalse
        exact absurd hfalse (by simp [PageElement.isText])
      · intro hfalse
        exact absurd hfalse (by simp [PageElement.isTable])
      · intro _
        simp

theorem claim_C8_witness :
    labelToDsType "Unknown-Foo" = none ∧
    ∃ acc', routeElement [pageW] { main_text := [], tables := [], figures := [] } elU =
        some acc' ∧ acc'.figures.length = 1 := by
  refine ⟨claim_C8.2.1 "Unknown-Foo" (by decide), ?_⟩
  obtain ⟨acc', hr, _, _, hf⟩ :=
    claim_C8.2.2 [pageW] { main_text := [], tables := [], figures := [] } elU pageW
      (by decide)
  exact ⟨acc', hr, by simpa using hf rfl⟩

/-- C10: assembling the output document is observationally pure: a call of
`to_ds_document` leaves every field of the receiver unchanged and returns
exactly the value of the pure assembly function, so a second call on the
post-state returns the same document. -/
theorem claim_C10 (cd : ConvertedDocument) :
    (to_ds_document_run cd).2 = cd ∧
    (to_ds_document_run cd).1 = to_ds_document cd ∧
    to_ds_document_run ((to_ds_document_run cd).2) = to_ds_document_run cd := by
  have h2 : (to_ds_document_run cd).2 = cd := by
    unfold to_ds_document_run
    rcases hr : routeAllRun cd { main_text := [], tables := [], figures := [] }
      cd.assembled.elements with ⟨o, st⟩
    have hst : st = cd := by
      have h := routeAllRun_snd cd cd.assembled.elements
        { main_text := [], tables := [], figures := [] }
      rw [hr] at h
      exact h
    cases o <;> simp [hst]
  have h1 : (to_ds_document_run cd).1 = to_ds_document cd := by
    unfold to_ds_document_run to_ds_document
    rcases hr : routeAllRun cd { main_text := [], tables := [], figures := [] }
      cd.assembled.elements with ⟨o, st⟩
    have hfst := routeAllRun_fst cd cd.assembled.elements
      { main_text := [], tables := [], figures := [] }
    rw [hr] at hfst
    have hst : st = cd := by
      have h := routeAllRun_snd cd cd.assembled.elements
        { main_text := [], tables := [], figures := [] }
      rw [hr] at h
      exact h
    rw [← hfst]
    cases o <;> simp [hst]
  exact ⟨h2, h1, by rw [h2]⟩

theorem claim_C10_witness : (to_ds_document_run cdW).2 = cdW :=
  (claim_C10 cdW).1

end Docling
